import Mathlib

/-!
Verification of the dual-path cluster orchestrator and benchmark metrics
pipeline (`src/performance_comparator.py`, `src/cluster_manager.py`,
`src/cluster_manager_thunderbolt.py`).

The Python code is shallowly embedded: Python floats become `ℚ`, Python
dictionaries with fixed key sets become structures, optional values become
`Option`, points where the Python code could raise (`float(...)`,
`statistics.mean` on an empty list, division by zero) become `Except`
failures.  Regex searches are embedded as hand-determinised scanning
functions that implement the backtracking semantics of the three concrete
patterns appearing in `parse_benchmark_output` (the determinisation is
justified pattern by pattern in the comments).
-/

set_option maxRecDepth 20000

/-! ## Generic list utilities -/

/-- Boolean test: `p` is a leading segment of `s` (character lists). -/
def preB : List Char → List Char → Bool
  | [], _ => true
  | _ :: _, [] => false
  | a :: as, b :: bs => a == b && preB as bs

/-- Boolean test: `p` occurs contiguously somewhere inside `s`. -/
def subB (p : List Char) : List Char → Bool
  | [] => preB p []
  | c :: t => preB p (c :: t) || subB p t

/-- Splitting a character list at newline characters, mirroring Python's
`str.split('\n')`: the result always has one more chunk than there are
newlines, and no chunk contains a newline. -/
def splitNl : List Char → List (List Char)
  | [] => [[]]
  | '\n' :: r => [] :: splitNl r
  | c :: r =>
    match splitNl r with
    | [] => [[c]]
    | l :: ls => (c :: l) :: ls

/-- Characters treated as whitespace by the `\s` class of the extractor's
patterns (the ASCII part; the run output scanned by the extractor is ASCII
around the matched fields). -/
def isPySpace (c : Char) : Bool :=
  c == ' ' || c == '\t' || c == '\n' || c == '\r' || c == '\x0b' || c == '\x0c'

/-- Numeric value of a digit string, most significant digit first. -/
def digitsToNat (s : List Char) : Nat :=
  s.foldl (fun n c => 10 * n + (c.toNat - '0'.toNat)) 0

/-! ## Model of Python `float()` on plain decimal literals

`float` is modelled on the literal forms the extractor's regexes can
capture (optionally signed integer and `digits.digits` strings); other
accepted spellings (exponents, `inf`, surrounding whitespace) are outside
the reachable inputs and map to `none`. -/

/-- Fractional continuation of the `float()` model: `d1` is the integer
digit run already read, `r1` the remaining text (which must be empty or a
dot followed by the fractional digits). -/
def pyFloatFrac (d1 : List Char) (r1 : List Char) : Option ℚ :=
  match r1 with
  | [] => if d1.isEmpty then none else some (digitsToNat d1 : ℚ)
  | c :: r2 =>
    if c = '.' then
      if (r2.dropWhile Char.isDigit).isEmpty then
        if d1.isEmpty && (r2.takeWhile Char.isDigit).isEmpty then none
        else
          some ((digitsToNat d1 : ℚ) +
            (digitsToNat (r2.takeWhile Char.isDigit) : ℚ) /
              (10 : ℚ) ^ (r2.takeWhile Char.isDigit).length)
      else none
    else none

/-- Unsigned part of the `float()` model: `digits`, `digits.digits`,
`digits.`, or `.digits`. -/
def pyFloatCore (s : List Char) : Option ℚ :=
  pyFloatFrac (s.takeWhile Char.isDigit) (s.dropWhile Char.isDigit)

/-- Model of Python `float()` (see `pyFloatCore` for the covered forms). -/
def pyFloat (s : List Char) : Option ℚ :=
  match s with
  | [] => pyFloatCore []
  | c :: r =>
    if c = '+' then pyFloatCore r
    else if c = '-' then (pyFloatCore r).map (fun q => -q)
    else pyFloatCore (c :: r)

/-! ## The extractor's dictionary (`parse_benchmark_output`'s `metrics`) -/

/-- Result dictionary built by `parse_benchmark_output`
(`src/performance_comparator.py` lines 46–53): the bandwidth kind is a
growing list, the three other kinds are single optional slots. -/
structure Metrics where
  network_type : String
  timestamp : String
  large_transfer_bandwidth : List ℚ
  sustained_ops_rate : Option ℚ
  sustained_throughput : Option ℚ
  message_storm_rate : Option ℚ
  deriving Repr, DecidableEq

/-- Initial `metrics` dictionary of `parse_benchmark_output`. -/
def initMetrics (network_type timestamp : String) : Metrics :=
  ⟨network_type, timestamp, [], none, none, none⟩

/-! ## Determinised regex matchers

Each matcher embeds one `re.search(pattern, line)` call of
`parse_benchmark_output` and returns the captured group text.  `re.search`
scans start positions left to right; `searchO f` applies the
position-level matcher `f` to every suffix of the line, leftmost first
(including the empty suffix, as `re.search` also tries the end position).
Lines handed to the matchers come from a `'\n'` split, so the difference
between `.` and "any character but newline" is immaterial. -/

/-- Leftmost-position search combinator. -/
def searchO {α : Type} (f : List Char → Option α) : List Char → Option α
  | [] => f []
  | c :: t => (f (c :: t)).orElse (fun _ => searchO f t)

/-- Capture of `(\d+\.\d+)` at the head of `s`, returning the captured
text and the rest.  The greedy `\d+` components never need backtracking
here: a shorter digit run would leave a digit where `.` (or the follower)
is required, so maximal munch is exact. -/
def decFrac (d1 : List Char) (r1 : List Char) : Option (List Char × List Char) :=
  match r1 with
  | [] => none
  | c :: r2 =>
    if c = '.' then
      if (r2.takeWhile Char.isDigit).isEmpty then none
      else some (d1 ++ '.' :: r2.takeWhile Char.isDigit, r2.dropWhile Char.isDigit)
    else none

/-- Splitting of `decCap` into the integer digit run and the rest. -/
def decCap (s : List Char) : Option (List Char × List Char) :=
  let d1 := s.takeWhile Char.isDigit
  if d1.isEmpty then none else decFrac d1 (s.dropWhile Char.isDigit)

/-- Literal matcher: strip the exact text `l` from the head of `s`. -/
def dropLit (l s : List Char) : Option (List Char) :=
  if preB l s then some (s.drop l.length) else none

/-- Tail of the bandwidth pattern, `(\d+\.\d+)\s*MB/s`, at the head of a
suffix: `\s*` is greedy before a literal that starts with a
non-whitespace character, so maximal munch is exact. -/
def bwTail (s : List Char) : Option (List Char) :=
  match decCap s with
  | none => none
  | some (cap, r) =>
    if preB "MB/s".data (r.dropWhile isPySpace) then some cap else none

/-- Position-level matcher for `(\d+)x\1.*?(\d+\.\d+)\s*MB/s`
(`src/performance_comparator.py` line 60).  At a fixed start the greedy
`(\d+)` can only succeed with the maximal digit run (any shorter run is
followed by a digit, not `x`), after which the backreference `\1` is a
literal check and the non-greedy `.*?` is a leftmost search for the tail. -/
def bwBackref (d : List Char) (r : List Char) : Option (List Char) :=
  match r with
  | [] => none
  | c :: r2 =>
    if c = 'x' then
      if preB d r2 then searchO bwTail (r2.drop d.length) else none
    else none

/-- Assembled position-level bandwidth matcher (split into `bwBackref`
after the leading digit run). -/
def bwAt (s : List Char) : Option (List Char) :=
  let d := s.takeWhile Char.isDigit
  if d.isEmpty then none else bwBackref d (s.dropWhile Char.isDigit)

/-- Embedded `re.search` for the large-transfer pattern; returns the text
of capture group 2 (the bandwidth decimal). -/
def matchBandwidth (line : List Char) : Option (List Char) :=
  searchO bwAt line

/-- Innermost tail of the sustained pattern: `(\d+\.\d+) MB/s` at the
head of a suffix. -/
def sustMbAt (s : List Char) : Option (List Char) :=
  match decCap s with
  | none => none
  | some (cap, r) => if preB " MB/s".data r then some cap else none

/-- Middle of the sustained pattern: `(\d+\.\d+) ops/s.*?(\d+\.\d+) MB/s`
at the head of a suffix.  Combining the two non-greedy scans into nested
leftmost searches is exact: any `MB/s` occurrence after a later `ops/s`
occurrence also lies after the first one, so backtracking the first `.*?`
can never rescue a failed start. -/
def sustOpsAt (s : List Char) : Option (List Char × List Char) :=
  match decCap s with
  | none => none
  | some (cap, r) =>
    if preB " ops/s".data r then
      (searchO sustMbAt (r.drop " ops/s".data.length)).map (fun cap2 => (cap, cap2))
    else none

/-- Position-level matcher for
`(SSH|Thunderbolt) Final.*?(\d+\.\d+) ops/s.*?(\d+\.\d+) MB/s`
(`src/performance_comparator.py` line 67): alternation tries `SSH` first,
matching `re`'s left-to-right alternation order. -/
def sustAt (s : List Char) : Option (List Char × List Char) :=
  match (dropLit "SSH Final".data s).orElse (fun _ => dropLit "Thunderbolt Final".data s) with
  | none => none
  | some rest => searchO sustOpsAt rest

/-- Embedded `re.search` for the sustained-final pattern; returns the
texts of capture groups 2 and 3 (ops rate, throughput). -/
def matchSustained (line : List Char) : Option (List Char × List Char) :=
  searchO sustAt line

/-- Tail of the storm pattern: `(\d+) ops/s` at the head of a suffix
(greedy `\d+` before a space is maximal munch, exactly). -/
def stormTail (s : List Char) : Option (List Char) :=
  let d := s.takeWhile Char.isDigit
  let r := s.dropWhile Char.isDigit
  if d.isEmpty then none
  else if preB " ops/s".data r then some d else none

/-- Position-level matcher for
`(SSH|Thunderbolt) message storm.*?(\d+) ops/s`
(`src/performance_comparator.py` line 74). -/
def stormAt (s : List Char) : Option (List Char) :=
  match (dropLit "SSH message storm".data s).orElse
      (fun _ => dropLit "Thunderbolt message storm".data s) with
  | none => none
  | some rest => searchO stormTail rest

/-- Embedded `re.search` for the message-storm pattern; returns the text
of capture group 2 (the integer rate). -/
def matchStorm (line : List Char) : Option (List Char) :=
  searchO stormAt line

/-! ## The extractor loop -/

/-- First clause of the per-line loop body: on a bandwidth match, append
`float(group(2))` to the bandwidth list (a `float()` failure would be a
Python exception, hence `Except`). -/
def stepBw (m : Metrics) (line : List Char) : Except String Metrics :=
  match matchBandwidth line with
  | none => Except.ok m
  | some cap =>
    match pyFloat cap with
    | none => Except.error "float"
    | some v =>
      Except.ok { m with large_transfer_bandwidth := m.large_transfer_bandwidth ++ [v] }

/-- Second clause: on a sustained-final match, overwrite both the ops-rate
and the throughput slots. -/
def stepSust (m : Metrics) (line : List Char) : Except String Metrics :=
  match matchSustained line with
  | none => Except.ok m
  | some (c1, c2) =>
    match pyFloat c1 with
    | none => Except.error "float"
    | some v1 =>
      match pyFloat c2 with
      | none => Except.error "float"
      | some v2 =>
        Except.ok { m with sustained_ops_rate := some v1, sustained_throughput := some v2 }

/-- Third clause: on a storm match, overwrite the storm-rate slot. -/
def stepStorm (m : Metrics) (line : List Char) : Except String Metrics :=
  match matchStorm line with
  | none => Except.ok m
  | some cap =>
    match pyFloat cap with
    | none => Except.error "float"
    | some v => Except.ok { m with message_storm_rate := some v }

/-- One iteration of the `for line in lines` loop of
`parse_benchmark_output` (all three patterns are tried on every line). -/
def parseLine (m : Metrics) (line : List Char) : Except String Metrics :=
  (stepBw m line).bind fun m1 => (stepSust m1 line).bind fun m2 => stepStorm m2 line

/-- The whole `for` loop. -/
def parseLines (m : Metrics) : List (List Char) → Except String Metrics
  | [] => Except.ok m
  | l :: ls => (parseLine m l).bind fun m' => parseLines m' ls

/-- Embedding of `PerformanceComparator.parse_benchmark_output`
(`src/performance_comparator.py` lines 44–78).  `timestamp` stands for the
`datetime.now().isoformat()` value. -/
def parse_benchmark_output (output network_type timestamp : String) : Except String Metrics :=
  parseLines (initMetrics network_type timestamp) (splitNl output.data)

/-- Parsed sample contributed by one line to the bandwidth list. -/
def bwVal (l : List Char) : Option ℚ :=
  (matchBandwidth l).bind pyFloat

/-- Parsed (ops rate, throughput) pair contributed by one line. -/
def sustVal (l : List Char) : Option (ℚ × ℚ) :=
  (matchSustained l).bind fun p =>
    (pyFloat p.1).bind fun v1 => (pyFloat p.2).map fun v2 => (v1, v2)

/-- Parsed storm rate contributed by one line. -/
def stormVal (l : List Char) : Option ℚ :=
  (matchStorm l).bind pyFloat

/-- Pure description of one loop iteration (shown below to agree with
`parseLine` whenever the latter does not fail). -/
def applyLine (m : Metrics) (l : List Char) : Metrics :=
  let m1 :=
    match bwVal l with
    | some v => { m with large_transfer_bandwidth := m.large_transfer_bandwidth ++ [v] }
    | none => m
  let m2 :=
    match sustVal l with
    | some p => { m1 with sustained_ops_rate := some p.1, sustained_throughput := some p.2 }
    | none => m1
  match stormVal l with
  | some v => { m2 with message_storm_rate := some v }
  | none => m2

/-- Metrics value produced by the extractor, with the initial dictionary
as a (provably unreachable) fallback on failure. -/
def parsedMetrics (output network_type timestamp : String) : Metrics :=
  (parse_benchmark_output output network_type timestamp).toOption.getD
    (initMetrics network_type timestamp)

/-! ## Comparison Engine (`calculate_improvements`) -/

/-- Python truthiness of an optional float (`None` and `0.0` are falsy),
as used by the `any(...)` guards of `calculate_improvements`. -/
def truthyOpt (o : Option ℚ) : Bool :=
  match o with
  | none => false
  | some v => decide (v ≠ 0)

/-- `statistics.mean`: raises on an empty sample list. -/
def meanE (l : List ℚ) : Except String ℚ :=
  if l.isEmpty then Except.error "mean requires at least one data point"
  else Except.ok (l.sum / (l.length : ℚ))

/-- Python float division: raises on a zero divisor. -/
def divE (a b : ℚ) : Except String ℚ :=
  if b = 0 then Except.error "float division by zero" else Except.ok (a / b)

/-- All bandwidth samples pooled across the runs of one side
(`[bw for run in results for bw in run['large_transfer_bandwidth']]`). -/
def bwSamples (runs : List Metrics) : List ℚ :=
  (runs.map (fun r => r.large_transfer_bandwidth)).flatten

/-- Guard `any(run['large_transfer_bandwidth'] for run in results)`:
a non-empty list is truthy. -/
def bwAny (runs : List Metrics) : Bool :=
  runs.any (fun r => !r.large_transfer_bandwidth.isEmpty)

/-- Samples of one optional-slot kind pooled across the runs of one side
(`[x for run in results if x is not None]`). -/
def optSamples (f : Metrics → Option ℚ) (runs : List Metrics) : List ℚ :=
  runs.filterMap f

/-- Guard `any(run[kind] for run in results)` for an optional-slot kind. -/
def optAny (f : Metrics → Option ℚ) (runs : List Metrics) : Bool :=
  runs.any (fun r => truthyOpt (f r))

/-- The `mean(...) if any(...) else 0` expression for the bandwidth kind. -/
def sideMeanBw (runs : List Metrics) : Except String ℚ :=
  if bwAny runs then meanE (bwSamples runs) else Except.ok 0

/-- The `mean(...) if any(...) else 0` expression for an optional-slot kind. -/
def sideMeanOpt (f : Metrics → Option ℚ) (runs : List Metrics) : Except String ℚ :=
  if optAny f runs then meanE (optSamples f runs) else Except.ok 0

/-- One value of the `improvements` dictionary. -/
structure ImprovementRecord where
  ssh_avg : ℚ
  thunderbolt_avg : ℚ
  improvement_percent : ℚ
  deriving Repr, DecidableEq

/-- The `improvements` dictionary of `calculate_improvements`: its four
possible keys, each present or absent. -/
structure Improvements where
  large_transfer_bandwidth : Option ImprovementRecord
  sustained_ops_rate : Option ImprovementRecord
  sustained_throughput : Option ImprovementRecord
  message_storm_rate : Option ImprovementRecord
  deriving Repr, DecidableEq

/-- The guarded entry construction shared by all four kinds:
`if ssh_avg > 0: improvements[kind] = {...percent...}`. -/
def kindEntry (sshAvg tbAvg : ℚ) : Except String (Option ImprovementRecord) :=
  if sshAvg > 0 then
    (divE (tbAvg - sshAvg) sshAvg).map (fun q => some ⟨sshAvg, tbAvg, q * 100⟩)
  else Except.ok none

/-- Embedding of `PerformanceComparator.calculate_improvements`
(`src/performance_comparator.py` lines 80–160).  The `None` early return
for a missing batch becomes `Except.ok none`. -/
def calculate_improvements (ssh tb : List Metrics) : Except String (Option Improvements) :=
  if ssh.isEmpty || tb.isEmpty then Except.ok none
  else
    (sideMeanBw ssh).bind fun sshBw =>
    (sideMeanBw tb).bind fun tbBw =>
    (kindEntry sshBw tbBw).bind fun eBw =>
    (sideMeanOpt (fun r => r.sustained_ops_rate) ssh).bind fun sshOps =>
    (sideMeanOpt (fun r => r.sustained_ops_rate) tb).bind fun tbOps =>
    (kindEntry sshOps tbOps).bind fun eOps =>
    (sideMeanOpt (fun r => r.sustained_throughput) ssh).bind fun sshThr =>
    (sideMeanOpt (fun r => r.sustained_throughput) tb).bind fun tbThr =>
    (kindEntry sshThr tbThr).bind fun eThr =>
    (sideMeanOpt (fun r => r.message_storm_rate) ssh).bind fun sshStorm =>
    (sideMeanOpt (fun r => r.message_storm_rate) tb).bind fun tbStorm =>
    (kindEntry sshStorm tbStorm).bind fun eStorm =>
    Except.ok (some ⟨eBw, eOps, eThr, eStorm⟩)

/-- The four metric kinds. -/
inductive MetricKind
  | largeTransferBandwidth
  | sustainedOpsRate
  | sustainedThroughput
  | messageStormRate
  deriving Repr, DecidableEq

/-- Samples of one kind pooled across a batch of runs (the lists the
engine's means are taken over). -/
def kindSamples (k : MetricKind) (runs : List Metrics) : List ℚ :=
  match k with
  | .largeTransferBandwidth => bwSamples runs
  | .sustainedOpsRate => optSamples (fun r => r.sustained_ops_rate) runs
  | .sustainedThroughput => optSamples (fun r => r.sustained_throughput) runs
  | .messageStormRate => optSamples (fun r => r.message_storm_rate) runs

/-- Field of the `improvements` dictionary for one kind. -/
def kindRecord (k : MetricKind) (imp : Improvements) : Option ImprovementRecord :=
  match k with
  | .largeTransferBandwidth => imp.large_transfer_bandwidth
  | .sustainedOpsRate => imp.sustained_ops_rate
  | .sustainedThroughput => imp.sustained_throughput
  | .messageStormRate => imp.message_storm_rate

/-- Arithmetic mean (total version, for statements about sample batches). -/
def meanQ (l : List ℚ) : ℚ := l.sum / (l.length : ℚ)

/-! ## Comparison Reporter (`print_comparison_report`) -/

/-- Qualitative label printed per metric kind. -/
inductive MetricLabel
  | improvement
  | regression
  | noChange
  deriving Repr, DecidableEq

/-- Per-kind labelling of `print_comparison_report`
(`src/performance_comparator.py` lines 186–191). -/
def metricLabel (x : ℚ) : MetricLabel :=
  if x > 0 then .improvement else if x < 0 then .regression else .noChange

/-- Overall qualitative band printed at the end of the report. -/
inductive OverallBand
  | excellent
  | good
  | neutral
  | concern
  deriving Repr, DecidableEq

/-- Band classification of `print_comparison_report`
(`src/performance_comparator.py` lines 198–205). -/
def overallBand (avg : ℚ) : OverallBand :=
  if avg > 5 then .excellent else if avg > 1 then .good
  else if avg > -1 then .neutral else .concern

/-- The `overall_improvements` list accumulated by the report loop, in the
dictionary's fixed insertion order. -/
def overallImprovements (imp : Improvements) : List ℚ :=
  ([imp.large_transfer_bandwidth, imp.sustained_ops_rate,
    imp.sustained_throughput, imp.message_storm_rate]).filterMap
    (fun o => o.map (fun r => r.improvement_percent))

/-- Overall summary printed by the report when at least one percentage was
collected (`if overall_improvements:`): the average and its band. -/
def overallSummary (imp : Improvements) : Option (ℚ × OverallBand) :=
  if (overallImprovements imp).isEmpty then none
  else
    some (meanQ (overallImprovements imp), overallBand (meanQ (overallImprovements imp)))

/-! ## Cluster topology constants -/

/-- Node names (`self.nodes` of both cluster managers). -/
def clusterNodes : List String := ["n1", "n2", "n3"]

/-- Control-plane (management network) addresses: `self.ssh_ips` of
`MacMiniClusterThunderboltOptimized`, identical to `self.node_ips` of
`MacMiniCluster`. -/
def ssh_ips : List String := ["192.168.183.173", "192.168.183.158", "192.168.183.122"]

/-- Data-plane (peer link) addresses: `self.thunderbolt_ips`. -/
def thunderbolt_ips : List String := ["169.254.1.1", "169.254.1.2", "169.254.1.3"]

/-! ## Deployer

Remote effects are modelled by an explicit environment: whether the local
script file exists, and the exit code each node's copy command would
return.  The embedded functions additionally return the trace of nodes a
copy was attempted on, so that "no network calls" and "no later node is
attempted" are statable. -/

/-- Environment for a deployment: local filesystem state and the exit
code of the `scp` invocation per node. -/
structure DeployEnv where
  script_exists : Bool
  copy_returncode : String → Int

/-- The `for node in self.nodes` copy loop shared verbatim by
`deploy_script` and the deployment phase of `MacMiniCluster.deploy_and_run`:
abort on the first non-zero exit code.  Returns the attempted nodes in
order and the success flag. -/
def scpLoop (env : DeployEnv) : List String → List String × Bool
  | [] => ([], true)
  | n :: ns =>
    if env.copy_returncode n ≠ 0 then ([n], false)
    else
      let r := scpLoop env ns
      (n :: r.1, r.2)

/-- Embedding of `MacMiniClusterThunderboltOptimized.deploy_script`
(`src/cluster_manager_thunderbolt.py` lines 17–33). -/
def deploy_script (env : DeployEnv) (nodeList : List String) : List String × Bool :=
  if env.script_exists then scpLoop env nodeList else ([], false)

/-- Embedding of the deployment phase of `MacMiniCluster.deploy_and_run`
(`src/cluster_manager.py` lines 19–36): the same existence check and
first-failure abort before any launch. -/
def deployPhase (env : DeployEnv) (nodeList : List String) : List String × Bool :=
  if env.script_exists then scpLoop env nodeList else ([], false)

/-- Index of the first node whose copy command fails. -/
def firstFailIdx (env : DeployEnv) : List String → Option Nat
  | [] => none
  | n :: ns =>
    if env.copy_returncode n ≠ 0 then some 0 else (firstFailIdx env ns).map (· + 1)

/-! ## Path-Aware Job Launcher command texts

Each builder reproduces, character for character, the f-string submitted
via `ssh n1 <command>` by the corresponding Python method, with
`self.venv_path` and `self.remote_base_dir` inlined as in the source. -/

/-- Shared opening of every cluster command (f-string leading newline,
`export PATH`, venv activation, `cd`). -/
def cmdPreamble : String :=
  "\n        export PATH=\"/opt/homebrew/bin:/usr/local/bin:$PATH\"\n" ++
  "        source /Users/0x53c/ray-cluster-venv/bin/activate\n" ++
  "        cd /Users/0x53c/cluster_jobs\n" ++
  "        \n"

/-- Trailing text of every cluster command (final newline and the closing
indentation before the `\"\"\"`). -/
def cmdTrail : String := "\n        "

/-- Constant part of `run_optimized_thunderbolt_job`'s command up to the
deployed script name (`src/cluster_manager_thunderbolt.py` lines 42–62). -/
def ojHead : String :=
  cmdPreamble ++
  "        echo \"⚡ THUNDERBOLT OPTIMIZED Environment: $(hostname)\"\n" ++
  "        echo \"🔧 Process Management: SSH (reliable)\"\n" ++
  "        echo \"📊 Data Transfer: Thunderbolt Bridge (high-performance)\"\n" ++
  "        echo \"🌐 Thunderbolt IPs: 169.254.1.1, 169.254.1.2, 169.254.1.3\"\n" ++
  "        echo \"\"\n" ++
  "        \n" ++
  "        # Key optimization: Use SSH IPs for launching, force Thunderbolt for data\n" ++
  "        /opt/homebrew/bin/mpirun \\\n" ++
  "            -np 3 \\\n" ++
  "            -H 192.168.183.173,192.168.183.158,192.168.183.122 \\\n" ++
  "            --map-by :OVERSUBSCRIBE \\\n" ++
  "            --mca btl_tcp_if_include 169.254.1.0/24 \\\n" ++
  "            --mca pml ob1 \\\n" ++
  "            --mca btl tcp,self \\\n" ++
  "            --mca orte_base_help_aggregate 0 \\\n" ++
  "            python3 "

/-- Embedding of the `cluster_command` f-string of
`MacMiniClusterThunderboltOptimized.run_optimized_thunderbolt_job`
(`src/cluster_manager_thunderbolt.py` lines 42–63). -/
def optimizedClusterCommand (script_name : String) : String :=
  ojHead ++ script_name ++ cmdTrail

/-- Python `f" {script_args}" if script_args else ""` (an absent or empty
argument string is falsy). -/
def argsStr (script_args : Option String) : String :=
  match script_args with
  | some a => if a = "" then "" else " " ++ a
  | none => ""

/-- Python `{script_args or 'none'}`. -/
def argsOrNone (script_args : Option String) : String :=
  match script_args with
  | some a => if a = "" then "none" else a
  | none => "none"

/-- Constant text of `run_distributed_script_with_args`'s command before
the script name in the `DISTRIBUTED` echo. -/
def distA : String := cmdPreamble ++ "        echo \"⚡ DISTRIBUTED: "

/-- Constant text between the `DISTRIBUTED` echo and the arguments echo. -/
def distB : String := "\"\n        echo \"📝 Arguments: "

/-- Constant text from the arguments echo to the launched script name:
the whole `mpirun` invocation, including the control-plane host list and
the data-plane transport filter. -/
def distC : String :=
  "\"\n" ++
  "        \n" ++
  "        /opt/homebrew/bin/mpirun \\\n" ++
  "            -np 3 \\\n" ++
  "            -H " ++ String.intercalate "," ssh_ips ++ " \\\n" ++
  "            --map-by :OVERSUBSCRIBE \\\n" ++
  "            --mca btl_tcp_if_include 169.254.1.0/24 \\\n" ++
  "            --mca pml ob1 \\\n" ++
  "            --mca btl tcp,self \\\n" ++
  "            --mca orte_base_help_aggregate 0 \\\n" ++
  "            python3 "

/-- Embedding of the `cluster_command` f-string of
`MacMiniClusterThunderboltOptimized.run_distributed_script_with_args`
(`src/cluster_manager_thunderbolt.py` lines 259–276). -/
def distributedClusterCommand (script_name : String) (script_args : Option String) : String :=
  distA ++ script_name ++ distB ++ argsOrNone script_args ++ distC ++
    script_name ++ argsStr script_args ++ cmdTrail

/-- Constant text of `MacMiniCluster.deploy_and_run`'s command before the
launched script name (`src/cluster_manager.py` lines 40–52), host list
inlined from `self.node_ips`. -/
def baseHead : String :=
  cmdPreamble ++
  "        echo \"🔍 Environment: $(hostname)\"\n" ++
  "        echo \"📍 Python: $(which python3)\"\n" ++
  "        echo \"🔧 MPI: $(which mpirun)\"\n" ++
  "        echo \"\"\n" ++
  "        \n" ++
  "        # Run with the working configuration - use original IPs directly\n" ++
  "        /opt/homebrew/bin/mpirun -np 3 --host " ++ String.intercalate "," ssh_ips ++
  " --map-by :OVERSUBSCRIBE python3 "

/-- Embedding of the `cluster_command` f-string of
`MacMiniCluster.deploy_and_run` (`src/cluster_manager.py` lines 41–53). -/
def baselineClusterCommand (script_name : String) : String :=
  baseHead ++ script_name ++ cmdTrail

/-- The self-check line of the optimized launch, with its surrounding
newlines and indentation: a full command line that echoes the data-plane
addresses the transport filter pins traffic to. -/
def selfCheckLine : String :=
  "\n        echo \"🌐 Thunderbolt IPs: 169.254.1.1, 169.254.1.2, 169.254.1.3\"\n"

/-- The data-plane forcing fragment: the transport filter restricted to
the Thunderbolt address range. -/
def dataPlaneFilter : String := "--mca btl_tcp_if_include 169.254.1.0/24"

/-- A command line counts as a transport self-check if it is an `echo`
that mentions the data-plane `169.254` address range. -/
def isSelfCheck (l : List Char) : Bool :=
  subB "echo".data l && subB "169.254".data l

/-- Whether any line of a submitted command text is a transport
self-check. -/
def hasSelfCheckLine (cmd : String) : Bool :=
  (splitNl cmd.data).any isSelfCheck

/-! ## Run Recorder

The artifact written by each manager's `deploy_and_run`.  The filesystem
is modelled by whole-file semantics: reading an artifact back returns
exactly the written string. -/

/-- Fifty dashes (`"-" * 50`). -/
def dashes50 : String := String.mk (List.replicate 50 '-')

/-- Artifact text written by
`MacMiniClusterThunderboltOptimized.deploy_and_run`
(`src/cluster_manager_thunderbolt.py` lines 87–98); the `STDERR` section
is written only when stderr is non-empty (`if result.stderr:`). -/
def recordThunderbolt (job_name timestamp stdout stderr : String) : String :=
  "Job: " ++ job_name ++ "\n" ++
  "Architecture: SSH process launch + Thunderbolt data\n" ++
  "Performance: Thunderbolt Bridge optimized\n" ++
  "Timestamp: " ++ timestamp ++ "\n" ++
  dashes50 ++ "\n" ++
  stdout ++
  (if stderr ≠ "" then "\nSTDERR:\n" ++ stderr else "")

/-- Artifact text written by `MacMiniCluster.deploy_and_run`
(`src/cluster_manager.py` lines 66–76); both sections are always
written. -/
def recordSsh (job_name script_name timestamp stdout stderr : String) : String :=
  "Job: " ++ job_name ++ "\n" ++
  "Script: " ++ script_name ++ "\n" ++
  "Timestamp: " ++ timestamp ++ "\n" ++
  dashes50 ++ "\n" ++
  "STDOUT:\n" ++ stdout ++
  "\nSTDERR:\n" ++ stderr

/-- Re-reading a written artifact: writes are whole-file replacements, so
a read returns the written text unchanged. -/
def readArtifact (written : String) : String := written

/-- The section separator the recorders place before the stderr text. -/
def stderrMarker : List Char := "\nSTDERR:\n".data

/-- Number of positions at which `m` occurs contiguously in `s`. -/
def occCount (m s : List Char) : Nat :=
  ((List.range (s.length + 1)).filter (fun i => preB m (s.drop i))).length

/-! ## Derived pure views of the engine and extractor -/

/-- Last-overwrite fold: the value an optional slot holds after being
overwritten by each element of `vals` in turn. -/
def lastUpd {α : Type} (vals : List α) (init : Option α) : Option α :=
  vals.foldl (fun _ v => some v) init

/-- Pure value of `sideMeanBw` (shown below to be its `.ok` payload). -/
def sideMeanBwVal (runs : List Metrics) : ℚ :=
  if bwAny runs then meanQ (bwSamples runs) else 0

/-- Pure value of `sideMeanOpt`. -/
def sideMeanOptVal (f : Metrics → Option ℚ) (runs : List Metrics) : ℚ :=
  if optAny f runs then meanQ (optSamples f runs) else 0

/-- Pure value of `kindEntry`. -/
def kindEntryVal (sshAvg tbAvg : ℚ) : Option ImprovementRecord :=
  if sshAvg > 0 then some ⟨sshAvg, tbAvg, (tbAvg - sshAvg) / sshAvg * 100⟩ else none

/-- Pure value of `calculate_improvements` on two non-empty batches. -/
def calcVal (ssh tb : List Metrics) : Improvements :=
  ⟨kindEntryVal (sideMeanBwVal ssh) (sideMeanBwVal tb),
   kindEntryVal (sideMeanOptVal (fun r => r.sustained_ops_rate) ssh)
     (sideMeanOptVal (fun r => r.sustained_ops_rate) tb),
   kindEntryVal (sideMeanOptVal (fun r => r.sustained_throughput) ssh)
     (sideMeanOptVal (fun r => r.sustained_throughput) tb),
   kindEntryVal (sideMeanOptVal (fun r => r.message_storm_rate) ssh)
     (sideMeanOptVal (fun r => r.message_storm_rate) tb)⟩

/-- Per-kind side mean as computed by the engine: the pooled-sample mean
under the truthiness guard, else zero. -/
def kindSideVal (k : MetricKind) (runs : List Metrics) : ℚ :=
  match k with
  | .largeTransferBandwidth => sideMeanBwVal runs
  | .sustainedOpsRate => sideMeanOptVal (fun r => r.sustained_ops_rate) runs
  | .sustainedThroughput => sideMeanOptVal (fun r => r.sustained_throughput) runs
  | .messageStormRate => sideMeanOptVal (fun r => r.message_storm_rate) runs

/-! ## Helper lemmas: leading-segment and occurrence tests -/

theorem preB_refl_append (p t : List Char) : preB p (p ++ t) = true := by
  induction p with
  | nil => rfl
  | cons a as ih => simp [preB, ih]

theorem preB_exists {p s : List Char} (h : preB p s = true) : ∃ t, s = p ++ t := by
  induction p generalizing s with
  | nil => exact ⟨s, rfl⟩
  | cons a as ih =>
    cases s with
    | nil => simp [preB] at h
    | cons b bs =>
      simp only [preB, Bool.and_eq_true, beq_iff_eq] at h
      obtain ⟨t, ht⟩ := ih h.2
      exact ⟨t, by simp [h.1, ht]⟩

theorem preB_length {p s : List Char} (h : preB p s = true) : p.length ≤ s.length := by
  obtain ⟨t, rfl⟩ := preB_exists h
  simp

theorem preB_app_of {p s : List Char} (t : List Char) (h : preB p s = true) :
    preB p (s ++ t) = true := by
  obtain ⟨u, rfl⟩ := preB_exists h
  rw [List.append_assoc]
  exact preB_refl_append p (u ++ t)

theorem subB_of_preB {p s : List Char} (h : preB p s = true) : subB p s = true := by
  cases s with
  | nil => exact h
  | cons c t => simp [subB, h]

theorem subB_app_left {p s : List Char} (t : List Char) (h : subB p s = true) :
    subB p (s ++ t) = true := by
  induction s with
  | nil =>
    simp only [List.nil_append]
    exact subB_of_preB (preB_app_of t h)
  | cons c cs ih =>
    simp only [subB, Bool.or_eq_true] at h
    rcases h with h | h
    · simpa [subB] using Or.inl (preB_app_of t h)
    · simpa [subB] using Or.inr (ih h)

theorem subB_app_right {p t : List Char} (s : List Char) (h : subB p t = true) :
    subB p (s ++ t) = true := by
  induction s with
  | nil => simpa using h
  | cons c cs ih => simpa [subB] using Or.inr ih

theorem subB_of_middle {p a c : List Char} (b : List Char) (h : subB p b = true) :
    subB p (a ++ b ++ c) = true := by
  rw [List.append_assoc]
  exact subB_app_right a (subB_app_left c h)

/-! ## Helper lemmas: takeWhile / dropWhile on structured lists -/

theorem takeWhile_all {p : Char → Bool} {l : List Char} (h : ∀ c ∈ l, p c = true) :
    l.takeWhile p = l := by
  induction l with
  | nil => rfl
  | cons a t ih =>
    rw [List.takeWhile_cons, h a (by simp)]
    simp [ih fun c hc => h c (by simp [hc])]

theorem dropWhile_all {p : Char → Bool} {l : List Char} (h : ∀ c ∈ l, p c = true) :
    l.dropWhile p = [] := by
  induction l with
  | nil => rfl
  | cons a t ih =>
    rw [List.dropWhile_cons, h a (by simp)]
    simp [ih fun c hc => h c (by simp [hc])]

theorem takeWhile_app {p : Char → Bool} {l : List Char} {x : Char} (r : List Char)
    (hl : ∀ c ∈ l, p c = true) (hx : p x = false) :
    (l ++ x :: r).takeWhile p = l := by
  induction l with
  | nil => simp [List.takeWhile_cons, hx]
  | cons a t ih =>
    rw [List.cons_append, List.takeWhile_cons, hl a (by simp)]
    simp [ih fun c hc => hl c (by simp [hc])]

theorem dropWhile_app {p : Char → Bool} {l : List Char} {x : Char} (r : List Char)
    (hl : ∀ c ∈ l, p c = true) (hx : p x = false) :
    (l ++ x :: r).dropWhile p = x :: r := by
  induction l with
  | nil => simp [List.dropWhile_cons, hx]
  | cons a t ih =>
    rw [List.cons_append, List.dropWhile_cons, hl a (by simp)]
    simp [ih fun c hc => hl c (by simp [hc])]

/-! ## Helper lemmas: `float()` succeeds on the captured texts -/

theorem pyFloatCore_digits {d : List Char} (hne : d ≠ [])
    (hd : ∀ c ∈ d, c.isDigit = true) : (pyFloatCore d).isSome = true := by
  unfold pyFloatCore
  rw [takeWhile_all hd, dropWhile_all hd, pyFloatFrac]
  simp [hne]

theorem pyFloat_not_signed {s : List Char} (hplus : s.head? ≠ some '+')
    (hminus : s.head? ≠ some '-') : pyFloat s = pyFloatCore s := by
  cases s with
  | nil => rfl
  | cons c r =>
    rw [pyFloat]
    rw [if_neg (by simpa using hplus), if_neg (by simpa using hminus)]

theorem head_digit_not_sign {d : List Char} {t : List Char} (hne : d ≠ [])
    (hd : ∀ c ∈ d, c.isDigit = true) :
    (d ++ t).head? ≠ some '+' ∧ (d ++ t).head? ≠ some '-' := by
  cases d with
  | nil => exact absurd rfl hne
  | cons a as =>
    have ha := hd a (by simp)
    constructor
    · intro h
      simp only [List.cons_append, List.head?_cons, Option.some_inj] at h
      subst h
      simp at ha
    · intro h
      simp only [List.cons_append, List.head?_cons, Option.some_inj] at h
      subst h
      simp at ha

theorem pyFloat_digits {d : List Char} (hne : d ≠ [])
    (hd : ∀ c ∈ d, c.isDigit = true) : (pyFloat d).isSome = true := by
  have h := head_digit_not_sign (t := []) hne hd
  rw [List.append_nil] at h
  rw [pyFloat_not_signed h.1 h.2]
  exact pyFloatCore_digits hne hd

theorem pyFloat_decimal {d1 d2 : List Char} (h1 : d1 ≠ []) (h2 : d2 ≠ [])
    (hd1 : ∀ c ∈ d1, c.isDigit = true) (hd2 : ∀ c ∈ d2, c.isDigit = true) :
    (pyFloat (d1 ++ '.' :: d2)).isSome = true := by
  have h := head_digit_not_sign (t := '.' :: d2) h1 hd1
  rw [pyFloat_not_signed h.1 h.2]
  unfold pyFloatCore
  rw [takeWhile_app _ hd1 (by decide), dropWhile_app _ hd1 (by decide), pyFloatFrac]
  rw [if_pos rfl, takeWhile_all hd2, dropWhile_all hd2]
  simp [h2]

/-! ## Helper lemmas: matcher captures are valid float literals -/

theorem decFrac_shape {d1 r1 cap r : List Char}
    (h : decFrac d1 r1 = some (cap, r)) :
    ∃ d2, cap = d1 ++ '.' :: d2 ∧ d2 ≠ [] ∧ ∀ c ∈ d2, c.isDigit = true := by
  cases r1 with
  | nil => simp [decFrac] at h
  | cons c r2 =>
    rw [decFrac] at h
    split_ifs at h with hc hd
    have h' := congrArg Prod.fst (Option.some_inj.mp h)
    exact ⟨r2.takeWhile Char.isDigit, h'.symm, by simpa using hd,
      fun x hx => List.mem_takeWhile_imp hx⟩

theorem decCap_shape {s cap r : List Char} (h : decCap s = some (cap, r)) :
    ∃ d1 d2, cap = d1 ++ '.' :: d2 ∧ d1 ≠ [] ∧ d2 ≠ [] ∧
      (∀ c ∈ d1, c.isDigit = true) ∧ (∀ c ∈ d2, c.isDigit = true) := by
  simp only [decCap] at h
  split_ifs at h with he
  obtain ⟨d2, hcap, hne2, hd2⟩ := decFrac_shape h
  exact ⟨s.takeWhile Char.isDigit, d2, hcap, by simpa using he,
    hne2, fun c hc => List.mem_takeWhile_imp hc, hd2⟩

theorem decCap_float {s cap r : List Char} (h : decCap s = some (cap, r)) :
    (pyFloat cap).isSome = true := by
  obtain ⟨d1, d2, hcap, h1, h2, hd1, hd2⟩ := decCap_shape h
  rw [hcap]
  exact pyFloat_decimal h1 h2 hd1 hd2

theorem searchO_some {α : Type} {f : List Char → Option α} {s : List Char} {a : α}
    (h : searchO f s = some a) : ∃ t, f t = some a := by
  induction s with
  | nil => exact ⟨[], h⟩
  | cons c t ih =>
    rw [searchO] at h
    cases hf : f (c :: t) with
    | some b =>
      rw [hf] at h
      simp only [Option.orElse] at h
      exact ⟨c :: t, hf.trans h⟩
    | none =>
      rw [hf] at h
      simp only [Option.orElse] at h
      exact ih h

theorem bwTail_some {u cap : List Char} (h : bwTail u = some cap) :
    ∃ r, decCap u = some (cap, r) := by
  cases hd : decCap u with
  | none => simp [bwTail, hd] at h
  | some pr =>
    obtain ⟨c, r⟩ := pr
    simp only [bwTail, hd] at h
    split_ifs at h
    obtain rfl := Option.some_inj.mp h
    exact ⟨r, rfl⟩

theorem bwBackref_some {d r cap : List Char} (h : bwBackref d r = some cap) :
    ∃ u, bwTail u = some cap := by
  cases r with
  | nil => simp [bwBackref] at h
  | cons c r2 =>
    rw [bwBackref] at h
    split_ifs at h
    exact searchO_some h

theorem bwAt_some {s cap : List Char} (h : bwAt s = some cap) :
    ∃ u, bwTail u = some cap := by
  simp only [bwAt] at h
  split_ifs at h
  exact bwBackref_some h

theorem matchBandwidth_float {l cap : List Char} (h : matchBandwidth l = some cap) :
    (pyFloat cap).isSome = true := by
  obtain ⟨t, ht⟩ := searchO_some h
  obtain ⟨u, hu⟩ := bwAt_some ht
  obtain ⟨r, hr⟩ := bwTail_some hu
  exact decCap_float hr

theorem sustMbAt_some {u cap : List Char} (h : sustMbAt u = some cap) :
    ∃ r, decCap u = some (cap, r) := by
  cases hd : decCap u with
  | none => simp [sustMbAt, hd] at h
  | some pr =>
    obtain ⟨c, r⟩ := pr
    simp only [sustMbAt, hd] at h
    split_ifs at h
    obtain rfl := Option.some_inj.mp h
    exact ⟨r, rfl⟩

theorem sustOpsAt_some {s : List Char} {c1 c2 : List Char}
    (h : sustOpsAt s = some (c1, c2)) :
    (∃ r, decCap s = some (c1, r)) ∧ ∃ u r, decCap u = some (c2, r) := by
  cases hd : decCap s with
  | none => simp [sustOpsAt, hd] at h
  | some pr =>
    obtain ⟨cap, r⟩ := pr
    simp only [sustOpsAt, hd] at h
    split_ifs at h
    rw [Option.map_eq_some'] at h
    obtain ⟨a, ha, hpair⟩ := h
    obtain ⟨he1, he2⟩ := Prod.mk.inj hpair
    subst he1; subst he2
    refine ⟨⟨r, rfl⟩, ?_⟩
    obtain ⟨u, hu⟩ := searchO_some ha
    obtain ⟨r2, hr2⟩ := sustMbAt_some hu
    exact ⟨u, r2, hr2⟩

theorem sustAt_some {s : List Char} {c1 c2 : List Char} (h : sustAt s = some (c1, c2)) :
    (∃ u r, decCap u = some (c1, r)) ∧ ∃ u r, decCap u = some (c2, r) := by
  rw [sustAt] at h
  rcases hdl : (dropLit "SSH Final".data s).orElse
      (fun _ => dropLit "Thunderbolt Final".data s) with _ | rest
  · rw [hdl] at h; simp at h
  · rw [hdl] at h
    obtain ⟨t, ht⟩ := searchO_some h
    obtain ⟨⟨r, hr⟩, h2⟩ := sustOpsAt_some ht
    exact ⟨⟨t, r, hr⟩, h2⟩

theorem matchSustained_floats {l : List Char} {c1 c2 : List Char}
    (h : matchSustained l = some (c1, c2)) :
    (pyFloat c1).isSome = true ∧ (pyFloat c2).isSome = true := by
  obtain ⟨t, ht⟩ := searchO_some h
  obtain ⟨⟨u1, r1, h1⟩, u2, r2, h2⟩ := sustAt_some ht
  exact ⟨decCap_float h1, decCap_float h2⟩

theorem stormTail_some {s cap : List Char} (h : stormTail s = some cap) :
    cap ≠ [] ∧ ∀ c ∈ cap, c.isDigit = true := by
  simp only [stormTail] at h
  split_ifs at h with he hp
  obtain rfl := Option.some_inj.mp h
  exact ⟨by simpa using he, fun c hc => List.mem_takeWhile_imp hc⟩

theorem matchStorm_float {l cap : List Char} (h : matchStorm l = some cap) :
    (pyFloat cap).isSome = true := by
  obtain ⟨t, ht⟩ := searchO_some h
  rw [stormAt] at ht
  rcases hdl : (dropLit "SSH message storm".data t).orElse
      (fun _ => dropLit "Thunderbolt message storm".data t) with _ | rest
  · rw [hdl] at ht; simp at ht
  · rw [hdl] at ht
    obtain ⟨u, hu⟩ := searchO_some ht
    obtain ⟨hne, hd⟩ := stormTail_some hu
    exact pyFloat_digits hne hd

/-! ## Helper lemmas: the extractor loop equals its pure description -/

theorem stepBw_eq (m : Metrics) (l : List Char) :
    stepBw m l = Except.ok (match bwVal l with
      | some v => { m with large_transfer_bandwidth := m.large_transfer_bandwidth ++ [v] }
      | none => m) := by
  cases hb : matchBandwidth l with
  | none => simp [stepBw, bwVal, hb]
  | some cap =>
    have hf := matchBandwidth_float hb
    cases hpf : pyFloat cap with
    | none => rw [hpf] at hf; simp at hf
    | some v => simp [stepBw, bwVal, hb, hpf]

theorem stepSust_eq (m : Metrics) (l : List Char) :
    stepSust m l = Except.ok (match sustVal l with
      | some p => { m with sustained_ops_rate := some p.1, sustained_throughput := some p.2 }
      | none => m) := by
  cases hs : matchSustained l with
  | none => simp [stepSust, sustVal, hs]
  | some pr =>
    obtain ⟨c1, c2⟩ := pr
    obtain ⟨hf1, hf2⟩ := matchSustained_floats hs
    cases hp1 : pyFloat c1 with
    | none => rw [hp1] at hf1; simp at hf1
    | some v1 =>
      cases hp2 : pyFloat c2 with
      | none => rw [hp2] at hf2; simp at hf2
      | some v2 => simp [stepSust, sustVal, hs, hp1, hp2]

theorem stepStorm_eq (m : Metrics) (l : List Char) :
    stepStorm m l = Except.ok (match stormVal l with
      | some v => { m with message_storm_rate := some v }
      | none => m) := by
  cases hb : matchStorm l with
  | none => simp [stepStorm, stormVal, hb]
  | some cap =>
    have hf := matchStorm_float hb
    cases hpf : pyFloat cap with
    | none => rw [hpf] at hf; simp at hf
    | some v => simp [stepStorm, stormVal, hb, hpf]

theorem parseLine_eq (m : Metrics) (l : List Char) :
    parseLine m l = Except.ok (applyLine m l) := by
  rcases hb : bwVal l with _ | v <;> rcases hs : sustVal l with _ | p <;>
    rcases ht : stormVal l with _ | w <;>
    simp [parseLine, stepBw_eq, stepSust_eq, stepStorm_eq, applyLine,
      hb, hs, ht, Except.bind]

theorem parseLines_eq (ls : List (List Char)) : ∀ m : Metrics,
    parseLines m ls = Except.ok (ls.foldl applyLine m) := by
  induction ls with
  | nil => intro m; rfl
  | cons l ls ih =>
    intro m
    rw [parseLines, parseLine_eq]
    show parseLines (applyLine m l) ls = _
    rw [ih, List.foldl_cons]

theorem parse_ok_eq (output network_type timestamp : String) :
    parse_benchmark_output output network_type timestamp =
      Except.ok ((splitNl output.data).foldl applyLine
        (initMetrics network_type timestamp)) := by
  rw [parse_benchmark_output, parseLines_eq]

theorem applyLine_bw (m : Metrics) (l : List Char) :
    (applyLine m l).large_transfer_bandwidth =
      m.large_transfer_bandwidth ++ (bwVal l).toList := by
  rcases hb : bwVal l with _ | v <;> rcases hs : sustVal l with _ | p <;>
    rcases ht : stormVal l with _ | w <;> simp [applyLine, hb, hs, ht]

theorem applyLine_ops (m : Metrics) (l : List Char) :
    (applyLine m l).sustained_ops_rate =
      (match sustVal l with
        | some p => some p.1
        | none => m.sustained_ops_rate) := by
  rcases hb : bwVal l with _ | v <;> rcases hs : sustVal l with _ | p <;>
    rcases ht : stormVal l with _ | w <;> simp [applyLine, hb, hs, ht]

theorem applyLine_thr (m : Metrics) (l : List Char) :
    (applyLine m l).sustained_throughput =
      (match sustVal l with
        | some p => some p.2
        | none => m.sustained_throughput) := by
  rcases hb : bwVal l with _ | v <;> rcases hs : sustVal l with _ | p <;>
    rcases ht : stormVal l with _ | w <;> simp [applyLine, hb, hs, ht]

theorem applyLine_storm (m : Metrics) (l : List Char) :
    (applyLine m l).message_storm_rate =
      (match stormVal l with
        | some v => some v
        | none => m.message_storm_rate) := by
  rcases hb : bwVal l with _ | v <;> rcases hs : sustVal l with _ | p <;>
    rcases ht : stormVal l with _ | w <;> simp [applyLine, hb, hs, ht]

theorem foldl_bw (ls : List (List Char)) : ∀ m : Metrics,
    (ls.foldl applyLine m).large_transfer_bandwidth =
      m.large_transfer_bandwidth ++ ls.filterMap bwVal := by
  induction ls with
  | nil => intro m; simp
  | cons l ls ih =>
    intro m
    rw [List.foldl_cons, ih, applyLine_bw, List.filterMap_cons]
    rcases bwVal l with _ | v <;> simp

theorem foldl_ops (ls : List (List Char)) : ∀ m : Metrics,
    (ls.foldl applyLine m).sustained_ops_rate =
      lastUpd ((ls.filterMap sustVal).map Prod.fst) m.sustained_ops_rate := by
  induction ls with
  | nil => intro m; simp [lastUpd]
  | cons l ls ih =>
    intro m
    rw [List.foldl_cons, ih, List.filterMap_cons]
    rcases hs : sustVal l with _ | p <;> simp [applyLine_ops, hs, lastUpd]

theorem foldl_thr (ls : List (List Char)) : ∀ m : Metrics,
    (ls.foldl applyLine m).sustained_throughput =
      lastUpd ((ls.filterMap sustVal).map Prod.snd) m.sustained_throughput := by
  induction ls with
  | nil => intro m; simp [lastUpd]
  | cons l ls ih =>
    intro m
    rw [List.foldl_cons, ih, List.filterMap_cons]
    rcases hs : sustVal l with _ | p <;> simp [applyLine_thr, hs, lastUpd]

theorem foldl_storm (ls : List (List Char)) : ∀ m : Metrics,
    (ls.foldl applyLine m).message_storm_rate =
      lastUpd (ls.filterMap stormVal) m.message_storm_rate := by
  induction ls with
  | nil => intro m; simp [lastUpd]
  | cons l ls ih =>
    intro m
    rw [List.foldl_cons, ih, List.filterMap_cons]
    rcases ht : stormVal l with _ | w <;> simp [applyLine_storm, ht, lastUpd]

theorem bwVal_isSome (l : List Char) :
    (bwVal l).isSome = (matchBandwidth l).isSome := by
  cases hb : matchBandwidth l with
  | none => simp [bwVal, hb]
  | some cap =>
    have hf := matchBandwidth_float hb
    cases hpf : pyFloat cap with
    | none => rw [hpf] at hf; simp at hf
    | some v => simp [bwVal, hb, hpf]

/-! ## Helper lemmas: the Comparison Engine never raises -/

theorem ok_bind {α β : Type} (v : α) (f : α → Except String β) :
    (Except.ok (ε := String) v).bind f = f v := rfl

theorem meanE_eq {l : List ℚ} (h : l ≠ []) : meanE l = Except.ok (meanQ l) := by
  rw [meanE, if_neg (by simpa using h)]
  rfl

theorem bwAny_samples {runs : List Metrics} (h : bwAny runs = true) :
    bwSamples runs ≠ [] := by
  rw [bwAny, List.any_eq_true] at h
  obtain ⟨r, hr, hne⟩ := h
  have hne' : r.large_transfer_bandwidth ≠ [] := by simpa using hne
  obtain ⟨x, hx⟩ := List.exists_mem_of_ne_nil _ hne'
  exact List.ne_nil_of_mem (List.mem_flatten.mpr
    ⟨r.large_transfer_bandwidth, List.mem_map.mpr ⟨r, hr, rfl⟩, hx⟩)

theorem optAny_samples {f : Metrics → Option ℚ} {runs : List Metrics}
    (h : optAny f runs = true) : optSamples f runs ≠ [] := by
  rw [optAny, List.any_eq_true] at h
  obtain ⟨r, hr, ht⟩ := h
  cases hf : f r with
  | none => rw [hf] at ht; simp [truthyOpt] at ht
  | some v => exact List.ne_nil_of_mem (List.mem_filterMap.mpr ⟨r, hr, hf⟩)

theorem sideMeanBw_eq (runs : List Metrics) :
    sideMeanBw runs = Except.ok (sideMeanBwVal runs) := by
  rw [sideMeanBw, sideMeanBwVal]
  by_cases h : bwAny runs = true
  · rw [if_pos h, if_pos h, meanE_eq (bwAny_samples h)]
  · rw [if_neg h, if_neg h]

theorem sideMeanOpt_eq (f : Metrics → Option ℚ) (runs : List Metrics) :
    sideMeanOpt f runs = Except.ok (sideMeanOptVal f runs) := by
  rw [sideMeanOpt, sideMeanOptVal]
  by_cases h : optAny f runs = true
  · rw [if_pos h, if_pos h, meanE_eq (optAny_samples h)]
  · rw [if_neg h, if_neg h]

theorem kindEntry_eq (a b : ℚ) : kindEntry a b = Except.ok (kindEntryVal a b) := by
  rw [kindEntry, kindEntryVal]
  by_cases h : a > 0
  · rw [if_pos h, if_pos h, divE, if_neg (ne_of_gt h)]
    rfl
  · rw [if_neg h, if_neg h]

theorem calc_eq {ssh tb : List Metrics} (hs : ssh ≠ []) (ht : tb ≠ []) :
    calculate_improvements ssh tb = Except.ok (some (calcVal ssh tb)) := by
  rw [calculate_improvements, if_neg (by simp [hs, ht])]
  simp only [sideMeanBw_eq, sideMeanOpt_eq, kindEntry_eq, ok_bind]
  rfl

theorem kindRecord_calcVal (k : MetricKind) (ssh tb : List Metrics) :
    kindRecord k (calcVal ssh tb) =
      kindEntryVal (kindSideVal k ssh) (kindSideVal k tb) := by
  cases k <;> rfl

theorem bwAny_false {runs : List Metrics} (h : bwSamples runs = []) :
    bwAny runs = false := by
  cases hb : bwAny runs
  · rfl
  · exact absurd h (bwAny_samples hb)

theorem optAny_false {f : Metrics → Option ℚ} {runs : List Metrics}
    (h : optSamples f runs = []) : optAny f runs = false := by
  cases hb : optAny f runs
  · rfl
  · exact absurd h (optAny_samples hb)

theorem kindSideVal_zero {k : MetricKind} {runs : List Metrics}
    (h : kindSamples k runs = []) : kindSideVal k runs = 0 := by
  cases k <;>
    simp_all [kindSideVal, kindSamples, sideMeanBwVal, sideMeanOptVal,
      bwAny_false, optAny_false]

/-! ## Helper lemmas: positive control means pass the truthiness guards -/

theorem sum_nonpos_of_forall {l : List ℚ} (h : ∀ x ∈ l, x ≤ 0) : l.sum ≤ 0 := by
  induction l with
  | nil => simp
  | cons a t ih =>
    simp only [List.sum_cons]
    have ha := h a (by simp)
    have ht := ih fun x hx => h x (by simp [hx])
    linarith

theorem meanQ_pos_exists {l : List ℚ} (h : 0 < meanQ l) : ∃ x ∈ l, 0 < x := by
  rcases eq_or_ne l [] with rfl | hne
  · simp [meanQ] at h
  · have hlen : (0 : ℚ) < (l.length : ℚ) := by
      have : 0 < l.length := List.length_pos.mpr hne
      exact_mod_cast this
    rw [meanQ] at h
    have hsum : 0 < l.sum :=
      (div_pos_iff.mp h).elim (fun x => x.1)
        (fun x => absurd hlen (not_lt.mpr (le_of_lt x.2)))
    by_contra hc
    push_neg at hc
    exact absurd (sum_nonpos_of_forall hc) (not_le.mpr hsum)

theorem bwAny_of_mem {runs : List Metrics} {x : ℚ} (hx : x ∈ bwSamples runs) :
    bwAny runs = true := by
  rw [bwSamples, List.mem_flatten] at hx
  obtain ⟨lst, hlst, hxl⟩ := hx
  obtain ⟨r, hr, rfl⟩ := List.mem_map.mp hlst
  rw [bwAny, List.any_eq_true]
  exact ⟨r, hr, by simp [List.ne_nil_of_mem hxl]⟩

theorem optAny_of_mem {f : Metrics → Option ℚ} {runs : List Metrics} {x : ℚ}
    (hx : x ∈ optSamples f runs) (hxne : x ≠ 0) : optAny f runs = true := by
  rw [optSamples, List.mem_filterMap] at hx
  obtain ⟨r, hr, hf⟩ := hx
  rw [optAny, List.any_eq_true]
  exact ⟨r, hr, by simp [truthyOpt, hf, hxne]⟩

theorem kindSideVal_of_pos {k : MetricKind} {runs : List Metrics}
    (h : 0 < meanQ (kindSamples k runs)) :
    kindSideVal k runs = meanQ (kindSamples k runs) := by
  obtain ⟨x, hx, hxpos⟩ := meanQ_pos_exists h
  cases k with
  | largeTransferBandwidth =>
    rw [kindSamples] at hx
    simp [kindSideVal, sideMeanBwVal, bwAny_of_mem hx, kindSamples]
  | sustainedOpsRate =>
    rw [kindSamples] at hx
    simp [kindSideVal, sideMeanOptVal, optAny_of_mem hx (ne_of_gt hxpos), kindSamples]
  | sustainedThroughput =>
    rw [kindSamples] at hx
    simp [kindSideVal, sideMeanOptVal, optAny_of_mem hx (ne_of_gt hxpos), kindSamples]
  | messageStormRate =>
    rw [kindSamples] at hx
    simp [kindSideVal, sideMeanOptVal, optAny_of_mem hx (ne_of_gt hxpos), kindSamples]

/-! ## Helper lemmas: the deployment copy loop -/

theorem scpLoop_eq (env : DeployEnv) : ∀ nodeList : List String,
    scpLoop env nodeList =
      (match firstFailIdx env nodeList with
        | none => (nodeList, true)
        | some i => (nodeList.take (i + 1), false)) := by
  intro nodeList
  induction nodeList with
  | nil => rfl
  | cons n ns ih =>
    by_cases hc : env.copy_returncode n ≠ 0
    · simp [scpLoop, firstFailIdx, hc]
    · rw [scpLoop, if_neg hc, firstFailIdx, if_neg (by simpa using hc), ih]
      cases firstFailIdx env ns <;> simp [List.take]

/-! ## Helper lemmas: unique marker occurrence pins the artifact split -/

theorem preB_nil_ne {m : List Char} (hm : m ≠ []) : preB m [] = false := by
  cases m with
  | nil => exact absurd rfl hm
  | cons c cs => rfl

theorem occ_le_length {m s : List Char} {i : Nat} (hm : m ≠ [])
    (hi : preB m (s.drop i) = true) : i ≤ s.length := by
  by_contra hlt
  push_neg at hlt
  rw [List.drop_of_length_le (le_of_lt hlt)] at hi
  rw [preB_nil_ne hm] at hi
  exact absurd hi (by simp)

theorem occCount_unique {m s : List Char} {i j : Nat} (hm : m ≠ [])
    (h1 : occCount m s = 1) (hi : preB m (s.drop i) = true)
    (hj : preB m (s.drop j) = true) : i = j := by
  have hmemi : i ∈ (List.range (s.length + 1)).filter (fun p => preB m (s.drop p)) :=
    List.mem_filter.mpr ⟨List.mem_range.mpr (Nat.lt_succ_of_le (occ_le_length hm hi)), hi⟩
  have hmemj : j ∈ (List.range (s.length + 1)).filter (fun p => preB m (s.drop p)) :=
    List.mem_filter.mpr ⟨List.mem_range.mpr (Nat.lt_succ_of_le (occ_le_length hm hj)), hj⟩
  obtain ⟨a, ha⟩ := List.length_eq_one.mp h1
  rw [ha, List.mem_singleton] at hmemi hmemj
  rw [hmemi, hmemj]

theorem preB_at_marker (a m b : List Char) : preB m ((a ++ (m ++ b)).drop a.length) = true := by
  rw [List.drop_left]
  exact preB_refl_append m b

theorem marker_split_unique {m a b c d : List Char} (hm : m ≠ [])
    (h1 : occCount m (a ++ (m ++ b)) = 1)
    (heq : a ++ (m ++ b) = c ++ (m ++ d)) : a = c ∧ b = d := by
  have hia := preB_at_marker a m b
  have hic : preB m ((a ++ (m ++ b)).drop c.length) = true := by
    rw [heq]
    exact preB_at_marker c m d
  have hlen : a.length = c.length := occCount_unique hm h1 hia hic
  have ha : (a ++ (m ++ b)).take a.length = a := List.take_left a _
  have hc : (c ++ (m ++ d)).take c.length = c := List.take_left c _
  have hac : a = c := by rw [← ha, ← hc, ← heq, hlen]
  subst hac
  have hmb := List.append_cancel_left heq
  exact ⟨rfl, List.append_cancel_left hmb⟩

theorem recordTb_data (j t out err : String) (h : err ≠ "") :
    (recordThunderbolt j t out err).data =
      ("Job: " ++ j ++ "\n" ++ "Architecture: SSH process launch + Thunderbolt data\n" ++
        "Performance: Thunderbolt Bridge optimized\n" ++ "Timestamp: " ++ t ++ "\n" ++
        dashes50 ++ "\n").data ++ (out.data ++ (stderrMarker ++ err.data)) := by
  rw [recordThunderbolt, if_pos h]
  simp [String.data_append, stderrMarker, List.append_assoc]

/-! ## Claim theorems -/

/-- C10: if either the control-path (SSH) result batch or the
alternate-path (Thunderbolt) result batch contains zero runs,
`calculate_improvements` returns no comparison mapping at all (`None`,
embedded as `ok none`) without computing any per-metric record and
without raising. -/
theorem c10_missing_batch_returns_none (ssh tb : List Metrics)
    (h : ssh = [] ∨ tb = []) :
    calculate_improvements ssh tb = Except.ok none := by
  rw [calculate_improvements]
  rcases h with rfl | rfl <;> simp

theorem c10_missing_batch_returns_none_witness :
    calculate_improvements [] [initMetrics "Thunderbolt" "t"] = Except.ok none :=
  c10_missing_batch_returns_none [] [initMetrics "Thunderbolt" "t"] (Or.inl rfl)

/-- C3: for every pair of sample batches, if a metric kind has zero
control-path samples then `calculate_improvements` omits that kind from
the result mapping (its field is absent in any returned mapping),
performs no division by zero for it, and raises no exception (the result
is an `ok` value). -/
theorem c3_zero_control_samples_omitted (ssh tb : List Metrics) (k : MetricKind)
    (h : kindSamples k ssh = []) :
    ∃ r, calculate_improvements ssh tb = Except.ok r ∧
      ∀ imp, r = some imp → kindRecord k imp = none := by
  rcases eq_or_ne ssh [] with rfl | hs
  · exact ⟨none, by rw [calculate_improvements]; simp, by simp⟩
  rcases eq_or_ne tb [] with rfl | ht
  · exact ⟨none, by rw [calculate_improvements]; simp, by simp⟩
  refine ⟨some (calcVal ssh tb), calc_eq hs ht, ?_⟩
  intro imp himp
  obtain rfl := Option.some_inj.mp himp
  rw [kindRecord_calcVal, kindEntryVal, kindSideVal_zero h]
  simp

theorem c3_zero_control_samples_omitted_witness :
    ∃ r, calculate_improvements [initMetrics "SSH" "t"] [initMetrics "Thunderbolt" "t"] =
        Except.ok r ∧
      ∀ imp, r = some imp → kindRecord MetricKind.messageStormRate imp = none :=
  c3_zero_control_samples_omitted [initMetrics "SSH" "t"] [initMetrics "Thunderbolt" "t"]
    MetricKind.messageStormRate (by decide)

/-- C4: for every metric kind where control-path samples give a positive
control mean but the alternate-path sample set is empty, the engine
reports the alternate mean as zero and the signed percentage change as
exactly -100, rather than raising or flagging missing data. -/
theorem c4_empty_alternate_reports_minus_hundred (ssh tb : List Metrics)
    (k : MetricKind) (hs : ssh ≠ []) (ht : tb ≠ [])
    (hpos : 0 < meanQ (kindSamples k ssh)) (halt : kindSamples k tb = []) :
    ∃ rec, calculate_improvements ssh tb = Except.ok (some (calcVal ssh tb)) ∧
      kindRecord k (calcVal ssh tb) = some rec ∧
      rec.thunderbolt_avg = 0 ∧ rec.improvement_percent = -100 := by
  have hcv := kindSideVal_of_pos hpos
  have hzero := kindSideVal_zero halt
  have hgt : kindSideVal k ssh > 0 := by rw [hcv]; exact hpos
  refine ⟨⟨kindSideVal k ssh, 0,
    (0 - kindSideVal k ssh) / kindSideVal k ssh * 100⟩, calc_eq hs ht, ?_, rfl, ?_⟩
  · rw [kindRecord_calcVal, hzero, kindEntryVal, if_pos hgt]
  · have hm : kindSideVal k ssh ≠ 0 := ne_of_gt hgt
    rw [zero_sub, neg_div, div_self hm]
    norm_num

theorem c4_empty_alternate_reports_minus_hundred_witness :
    ∃ rec, calculate_improvements [⟨"SSH", "t", [], none, none, some 10⟩]
          [initMetrics "Thunderbolt" "t"] =
        Except.ok (some (calcVal [⟨"SSH", "t", [], none, none, some 10⟩]
          [initMetrics "Thunderbolt" "t"])) ∧
      kindRecord MetricKind.messageStormRate
          (calcVal [⟨"SSH", "t", [], none, none, some 10⟩]
            [initMetrics "Thunderbolt" "t"]) = some rec ∧
      rec.thunderbolt_avg = 0 ∧ rec.improvement_percent = -100 :=
  c4_empty_alternate_reports_minus_hundred
    [⟨"SSH", "t", [], none, none, some 10⟩] [initMetrics "Thunderbolt" "t"]
    MetricKind.messageStormRate (by simp) (by simp)
    (by norm_num [meanQ, kindSamples, optSamples, List.filterMap_cons, List.filterMap_nil])
    (by simp [kindSamples, optSamples, List.filterMap_cons, initMetrics])

/-- C6: `deploy` validates that the local script exists before making
any remote copy attempt (the attempt trace is empty when it is missing),
iterates nodes in fixed order, and aborts at the first node whose copy
exits non-zero: the trace is exactly the nodes up to and including the
first failure, so at most "position of first failure + 1" copies are
attempted and no later node is attempted.  Both the thunderbolt manager's
`deploy_script` and the baseline manager's deployment phase behave this
way. -/
theorem c6_deploy_fail_fast (env : DeployEnv) (nodeList : List String) :
    (env.script_exists = false →
        deploy_script env nodeList = ([], false) ∧
        deployPhase env nodeList = ([], false)) ∧
      (env.script_exists = true →
        (firstFailIdx env nodeList = none →
          deploy_script env nodeList = (nodeList, true)) ∧
        ∀ i, firstFailIdx env nodeList = some i →
          deploy_script env nodeList = (nodeList.take (i + 1), false) ∧
          (deploy_script env nodeList).1.length ≤ i + 1) ∧
      deployPhase env nodeList = deploy_script env nodeList := by
  refine ⟨?_, ?_, rfl⟩
  · intro h
    rw [deploy_script, deployPhase, h]
    simp
  · intro h
    constructor
    · intro hnone
      rw [deploy_script, if_pos h, scpLoop_eq, hnone]
    · intro i hi
      rw [deploy_script, if_pos h, scpLoop_eq, hi]
      exact ⟨rfl, by simp⟩

theorem c6_deploy_fail_fast_witness :
    deploy_script ⟨true, fun n => if n = "n2" then 1 else 0⟩ clusterNodes =
        (["n1", "n2"], false) ∧
      (deploy_script ⟨true, fun n => if n = "n2" then 1 else 0⟩ clusterNodes).1.length ≤ 2 := by
  have h := ((c6_deploy_fail_fast ⟨true, fun n => if n = "n2" then 1 else 0⟩
    clusterNodes).2.1 rfl).2 1 (by decide)
  simpa [clusterNodes] using h

/-- C1 (counterexample): the claim says every metric kind accumulates one
sample per matching line, but for the message-storm kind two matching
lines leave a single stored sample (the second line's value), not two. -/
theorem c1_counterexample_single_slot_kinds :
    (splitNl ("SSH message storm - 100 ops/s\nSSH message storm - 200 ops/s").data).countP
        (fun l => (matchStorm l).isSome) = 2 ∧
      (parsedMetrics "SSH message storm - 100 ops/s\nSSH message storm - 200 ops/s"
          "SSH" "t").message_storm_rate.toList.length = 1 ∧
      (parsedMetrics "SSH message storm - 100 ops/s\nSSH message storm - 200 ops/s"
          "SSH" "t").message_storm_rate = some 200 := by
  refine ⟨by decide, by decide, by decide⟩

/-- C1 (amended): only the transfer-bandwidth kind accumulates one sample
per matching line (k matching lines give k samples, in line order); the
sustained-operation-rate, sustained-throughput and message-rate kinds are
single overwritten slots, so they carry at most one sample — the value
parsed from the last matching line. -/
theorem c1_sample_multiplicity_per_kind (output network_type timestamp : String) :
    ∃ m, parse_benchmark_output output network_type timestamp = Except.ok m ∧
      m.large_transfer_bandwidth = (splitNl output.data).filterMap bwVal ∧
      m.large_transfer_bandwidth.length =
        (splitNl output.data).countP (fun l => (matchBandwidth l).isSome) ∧
      m.sustained_ops_rate =
        lastUpd (((splitNl output.data).filterMap sustVal).map Prod.fst) none ∧
      m.sustained_throughput =
        lastUpd (((splitNl output.data).filterMap sustVal).map Prod.snd) none ∧
      m.message_storm_rate = lastUpd ((splitNl output.data).filterMap stormVal) none ∧
      m.sustained_ops_rate.toList.length ≤ 1 ∧
      m.sustained_throughput.toList.length ≤ 1 ∧
      m.message_storm_rate.toList.length ≤ 1 := by
  refine ⟨_, parse_ok_eq output network_type timestamp,
    ?_, ?_, ?_, ?_, ?_, ?_, ?_, ?_⟩
  · rw [foldl_bw]
    simp [initMetrics]
  · rw [foldl_bw]
    simp only [initMetrics, List.nil_append, List.length_filterMap_eq_countP]
    simp [bwVal_isSome]
  · rw [foldl_ops]
    rfl
  · rw [foldl_thr]
    rfl
  · rw [foldl_storm]
    rfl
  · cases h : ((splitNl output.data).foldl applyLine
      (initMetrics network_type timestamp)).sustained_ops_rate <;> simp
  · cases h : ((splitNl output.data).foldl applyLine
      (initMetrics network_type timestamp)).sustained_throughput <;> simp
  · cases h : ((splitNl output.data).foldl applyLine
      (initMetrics network_type timestamp)).message_storm_rate <;> simp

/-- C5: the extractor is total — on every input string it returns a
result without raising — and a line matching no pattern contributes
nothing (the loop body returns the metrics unchanged). -/
theorem c5_extractor_total :
    (∀ output network_type timestamp : String,
        (parse_benchmark_output output network_type timestamp).isOk = true) ∧
      ∀ (m : Metrics) (l : List Char), matchBandwidth l = none →
        matchSustained l = none → matchStorm l = none →
        parseLine m l = Except.ok m := by
  constructor
  · intro o nt ts
    rw [parse_ok_eq]
    rfl
  · intro m l hb hs ht
    have hm : applyLine m l = m := by
      simp [applyLine, bwVal, sustVal, stormVal, hb, hs, ht]
    rw [parseLine_eq, hm]

theorem c5_extractor_total_witness :
    (parse_benchmark_output "no metrics in this output" "SSH" "t").isOk = true ∧
      parseLine (initMetrics "SSH" "t") "a plain line".data =
        Except.ok (initMetrics "SSH" "t") :=
  ⟨c5_extractor_total.1 "no metrics in this output" "SSH" "t",
    c5_extractor_total.2 (initMetrics "SSH" "t") "a plain line".data
      (by decide) (by decide) (by decide)⟩

/-- C7: any run-output text whose lines produce exactly the three
bandwidth-pattern matches 100.0, 200.0, 300.0 (in line order) makes the
extractor return exactly those three transfer-bandwidth samples, in that
order. -/
theorem c7_three_bandwidth_lines (output network_type timestamp : String)
    (h : (splitNl output.data).filterMap bwVal = [100, 200, 300]) :
    ∃ m, parse_benchmark_output output network_type timestamp = Except.ok m ∧
      m.large_transfer_bandwidth = [100, 200, 300] := by
  refine ⟨_, parse_ok_eq output network_type timestamp, ?_⟩
  rw [foldl_bw, h]
  simp [initMetrics]

theorem pyFloat_decimal_eq {d1 d2 : List Char} (h1 : d1 ≠ []) (h2 : d2 ≠ [])
    (hd1 : ∀ c ∈ d1, c.isDigit = true) (hd2 : ∀ c ∈ d2, c.isDigit = true) :
    pyFloat (d1 ++ '.' :: d2) =
      some ((digitsToNat d1 : ℚ) + (digitsToNat d2 : ℚ) / (10 : ℚ) ^ d2.length) := by
  have h := head_digit_not_sign (t := '.' :: d2) h1 hd1
  rw [pyFloat_not_signed h.1 h.2]
  unfold pyFloatCore
  rw [takeWhile_app _ hd1 (by decide), dropWhile_app _ hd1 (by decide), pyFloatFrac]
  rw [if_pos rfl, takeWhile_all hd2, dropWhile_all hd2]
  simp [h2]

theorem c7_three_bandwidth_lines_witness :
    ∃ m, parse_benchmark_output
        ("Node 1: 10x10 (0.5MB) - 1.0s - 100.0 MB/s\nNode 2: 10x10 (0.5MB) - 1.0s - 200.0 MB/s\nNode 3: 10x10 (0.5MB) - 1.0s - 300.0 MB/s")
        "SSH" "t" = Except.ok m ∧
      m.large_transfer_bandwidth = [100, 200, 300] := by
  refine c7_three_bandwidth_lines _ "SSH" "t" ?_
  have hsplit : splitNl
      ("Node 1: 10x10 (0.5MB) - 1.0s - 100.0 MB/s\nNode 2: 10x10 (0.5MB) - 1.0s - 200.0 MB/s\nNode 3: 10x10 (0.5MB) - 1.0s - 300.0 MB/s").data =
      [("Node 1: 10x10 (0.5MB) - 1.0s - 100.0 MB/s").data,
       ("Node 2: 10x10 (0.5MB) - 1.0s - 200.0 MB/s").data,
       ("Node 3: 10x10 (0.5MB) - 1.0s - 300.0 MB/s").data] := by decide
  have e1 : bwVal ("Node 1: 10x10 (0.5MB) - 1.0s - 100.0 MB/s").data = some 100 := by
    have hm : matchBandwidth ("Node 1: 10x10 (0.5MB) - 1.0s - 100.0 MB/s").data =
        some (['1', '0', '0'] ++ '.' :: ['0']) := by decide
    rw [bwVal, hm, Option.some_bind,
      pyFloat_decimal_eq (by decide) (by decide) (by decide) (by decide),
      show digitsToNat ['1', '0', '0'] = 100 from by decide,
      show digitsToNat ['0'] = 0 from by decide]
    norm_num
  have e2 : bwVal ("Node 2: 10x10 (0.5MB) - 1.0s - 200.0 MB/s").data = some 200 := by
    have hm : matchBandwidth ("Node 2: 10x10 (0.5MB) - 1.0s - 200.0 MB/s").data =
        some (['2', '0', '0'] ++ '.' :: ['0']) := by decide
    rw [bwVal, hm, Option.some_bind,
      pyFloat_decimal_eq (by decide) (by decide) (by decide) (by decide),
      show digitsToNat ['2', '0', '0'] = 200 from by decide,
      show digitsToNat ['0'] = 0 from by decide]
    norm_num
  have e3 : bwVal ("Node 3: 10x10 (0.5MB) - 1.0s - 300.0 MB/s").data = some 300 := by
    have hm : matchBandwidth ("Node 3: 10x10 (0.5MB) - 1.0s - 300.0 MB/s").data =
        some (['3', '0', '0'] ++ '.' :: ['0']) := by decide
    rw [bwVal, hm, Option.some_bind,
      pyFloat_decimal_eq (by decide) (by decide) (by decide) (by decide),
      show digitsToNat ['3', '0', '0'] = 300 from by decide,
      show digitsToNat ['0'] = 0 from by decide]
    norm_num
  rw [hsplit, List.filterMap_cons, List.filterMap_cons, List.filterMap_cons, e1, e2, e3]
  rfl

theorem optCmd_data (s : String) :
    (optimizedClusterCommand s).data = ojHead.data ++ (s.data ++ cmdTrail.data) := by
  simp [optimizedClusterCommand, String.data_append]

theorem distCmd_data (s : String) (a : Option String) :
    (distributedClusterCommand s a).data =
      distA.data ++ (s.data ++ (distB.data ++ ((argsOrNone a).data ++
        (distC.data ++ (s.data ++ ((argsStr a).data ++ cmdTrail.data)))))) := by
  simp [distributedClusterCommand, String.data_append, List.append_assoc]

theorem baseCmd_data (s : String) :
    (baselineClusterCommand s).data = baseHead.data ++ (s.data ++ cmdTrail.data) := by
  simp [baselineClusterCommand, String.data_append]

/-- C2 (amended): every distributed-topology launch command embeds every
node's control-plane address (all three builders), and the optimized
thunderbolt launch embeds both the data-plane transport filter and the
self-check echo line; the `run_distributed_script_with_args` launch also
embeds the data-plane transport filter, but (see the counterexample) no
self-check line. -/
theorem c2_host_list_and_self_check (script_name : String) (script_args : Option String) :
    (∀ ip ∈ ssh_ips,
        subB ip.data (optimizedClusterCommand script_name).data = true ∧
        subB ip.data (distributedClusterCommand script_name script_args).data = true ∧
        subB ip.data (baselineClusterCommand script_name).data = true) ∧
      subB selfCheckLine.data (optimizedClusterCommand script_name).data = true ∧
      subB dataPlaneFilter.data (optimizedClusterCommand script_name).data = true ∧
      subB dataPlaneFilter.data (distributedClusterCommand script_name script_args).data = true := by
  have lopt : ∀ p : List Char, subB p ojHead.data = true →
      subB p (optimizedClusterCommand script_name).data = true := by
    intro p h
    rw [optCmd_data]
    exact subB_app_left _ h
  have ldist : ∀ p : List Char, subB p distC.data = true →
      subB p (distributedClusterCommand script_name script_args).data = true := by
    intro p h
    rw [distCmd_data]
    exact subB_app_right _ (subB_app_right _ (subB_app_right _ (subB_app_right _
      (subB_app_left _ h))))
  have lbase : ∀ p : List Char, subB p baseHead.data = true →
      subB p (baselineClusterCommand script_name).data = true := by
    intro p h
    rw [baseCmd_data]
    exact subB_app_left _ h
  refine ⟨?_, lopt _ (by decide), lopt _ (by decide), ldist _ (by decide)⟩
  intro ip hip
  simp only [ssh_ips, List.mem_cons, List.not_mem_nil, or_false] at hip
  rcases hip with rfl | rfl | rfl <;>
    exact ⟨lopt _ (by decide), ldist _ (by decide), lbase _ (by decide)⟩

theorem c2_host_list_and_self_check_witness :
    subB ("192.168.183.158").data
        (distributedClusterCommand "thunderbolt_benchmark.py" none).data = true ∧
      subB selfCheckLine.data
        (optimizedClusterCommand "thunderbolt_benchmark.py").data = true := by
  have h := c2_host_list_and_self_check "thunderbolt_benchmark.py" none
  exact ⟨(h.1 "192.168.183.158" (by simp [ssh_ips])).2.1, h.2.1⟩

/-- C2 (counterexample): the `run_distributed_script_with_args` command
forces the data plane (the transport filter is present) yet contains no
self-check line — no line of it is an `echo` mentioning the `169.254`
data-plane range — while the optimized launch does contain one. -/
theorem c2_counterexample_distributed_launch_lacks_self_check :
    subB dataPlaneFilter.data
        (distributedClusterCommand "thunderbolt_benchmark.py" none).data = true ∧
      hasSelfCheckLine (distributedClusterCommand "thunderbolt_benchmark.py" none) = false ∧
      hasSelfCheckLine (optimizedClusterCommand "thunderbolt_benchmark.py") = true := by
  exact ⟨by decide, by decide, by decide⟩

/-- C8 (counterexample): at an overall average of exactly -1%, the report
prints the CONCERN band, whereas the claim places -1 in the neutral band
and reserves concern for averages strictly below -1. -/
theorem c8_counterexample_band_at_minus_one :
    overallBand (-1) = OverallBand.concern ∧
      overallBand (-1) ≠ OverallBand.neutral ∧ ¬((-1 : ℚ) < -1) := by
  have hb : overallBand (-1) = OverallBand.concern := by norm_num [overallBand]
  exact ⟨hb, by rw [hb]; decide, by norm_num⟩

/-- C8 (amended): the reporter labels each metric kind improvement /
regression / no change by the sign of its percentage change; the overall
average is the arithmetic mean of all reported percentage changes; the
bands are half-open on the left: excellent for >5, good for (1, 5],
neutral for (-1, 1], and concern for ≤ -1 (not only < -1). -/
theorem c8_report_labels_and_bands :
    (∀ x : ℚ, (metricLabel x = MetricLabel.improvement ↔ 0 < x) ∧
        (metricLabel x = MetricLabel.regression ↔ x < 0) ∧
        (metricLabel x = MetricLabel.noChange ↔ x = 0)) ∧
      (∀ a : ℚ, (overallBand a = OverallBand.excellent ↔ 5 < a) ∧
        (overallBand a = OverallBand.good ↔ 1 < a ∧ a ≤ 5) ∧
        (overallBand a = OverallBand.neutral ↔ -1 < a ∧ a ≤ 1) ∧
        (overallBand a = OverallBand.concern ↔ a ≤ -1)) ∧
      ∀ (imp : Improvements) (q : ℚ) (b : OverallBand),
        overallSummary imp = some (q, b) →
        q = (overallImprovements imp).sum / ((overallImprovements imp).length : ℚ) ∧
        b = overallBand q := by
  refine ⟨?_, ?_, ?_⟩
  · intro x
    refine ⟨?_, ?_, ?_⟩ <;> constructor <;> intro h <;>
      simp only [metricLabel] at h ⊢ <;> split_ifs at h ⊢ <;>
      first | rfl | linarith
  · intro a
    refine ⟨?_, ?_, ?_, ?_⟩ <;> constructor <;> intro h <;>
      simp only [overallBand] at h ⊢ <;> split_ifs at h ⊢ <;>
      first
        | rfl
        | linarith
        | (constructor <;> linarith)
  · intro imp q b h
    rw [overallSummary] at h
    split_ifs at h with he
    obtain ⟨hq, hb⟩ := Prod.mk.inj (Option.some_inj.mp h)
    subst hq
    exact ⟨rfl, hb.symm⟩

theorem c8_report_labels_and_bands_witness :
    (100 : ℚ) =
        (overallImprovements ⟨some ⟨10, 20, 100⟩, none, none, none⟩).sum /
          ((overallImprovements ⟨some ⟨10, 20, 100⟩, none, none, none⟩).length : ℚ) ∧
      OverallBand.excellent = overallBand 100 := by
  have himp : overallImprovements ⟨some ⟨10, 20, 100⟩, none, none, none⟩ = [100] := by
    simp [overallImprovements]
  refine c8_report_labels_and_bands.2.2 ⟨some ⟨10, 20, 100⟩, none, none, none⟩
    100 OverallBand.excellent ?_
  rw [overallSummary, himp]
  norm_num [meanQ, overallBand]

/-- C9 (counterexample): the recorder's artifact format is not injective
in (stdout, stderr) — the run with stdout "X\nSTDERR:\nY" and empty
stderr writes byte-for-byte the same artifact as the run with stdout "X"
and stderr "Y" — so no re-reading procedure can reproduce the original
pair byte-for-byte in general. -/
theorem c9_counterexample_record_not_injective :
    recordThunderbolt "j" "t" "X\nSTDERR:\nY" "" =
        recordThunderbolt "j" "t" "X" "Y" ∧
      ("X\nSTDERR:\nY", ("" : String)) ≠ (("X" : String), ("Y" : String)) := by
  exact ⟨by decide, by decide⟩


theorem recordSsh_data (j s t out err : String) :
    (recordSsh j s t out err).data =
      ("Job: " ++ j ++ "\n" ++ "Script: " ++ s ++ "\n" ++ "Timestamp: " ++ t ++ "\n" ++
        dashes50 ++ "\n" ++ "STDOUT:\n").data ++ (out.data ++ (stderrMarker ++ err.data)) := by
  simp [recordSsh, String.data_append, stderrMarker, List.append_assoc]

/-- C9 (amended): re-reading returns exactly the written artifact, but
the artifact determines the captured pair only conditionally.  For the
baseline recorder (both sections always written) and a fixed job header,
the pair is recoverable byte-for-byte exactly when the STDERR separator
occurs exactly once in the recorded body: unique occurrence forces any
colliding pair to coincide, and an occurrence at any other position
yields a distinct second preimage.  For the thunderbolt recorder, whose
STDERR section is omitted when stderr is empty, every run with non-empty
stderr shares its artifact byte-for-byte with a distinct empty-stderr
run, so the pair is not recoverable in general; among runs with
non-empty stderr, unique separator occurrence again determines the
pair. -/
theorem c9_recorder_round_trip :
    (∀ j s t out1 err1 out2 err2 : String,
        occCount stderrMarker (out1.data ++ (stderrMarker ++ err1.data)) = 1 →
        readArtifact (recordSsh j s t out1 err1) = recordSsh j s t out2 err2 →
        out1 = out2 ∧ err1 = err2) ∧
      (∀ (j s t out err : String) (p : Nat),
        preB stderrMarker ((out.data ++ (stderrMarker ++ err.data)).drop p) = true →
        p ≠ out.data.length →
        ∃ out' err', recordSsh j s t out' err' = recordSsh j s t out err ∧
          (out', err') ≠ (out, err)) ∧
      (∀ j t out err : String, err ≠ "" →
        recordThunderbolt j t (out ++ "\nSTDERR:\n" ++ err) "" =
          recordThunderbolt j t out err ∧
        ((out ++ "\nSTDERR:\n" ++ err : String), ("" : String)) ≠ (out, err)) ∧
      ∀ j t out1 err1 out2 err2 : String, err1 ≠ "" → err2 ≠ "" →
        occCount stderrMarker (out1.data ++ (stderrMarker ++ err1.data)) = 1 →
        readArtifact (recordThunderbolt j t out1 err1) = recordThunderbolt j t out2 err2 →
        out1 = out2 ∧ err1 = err2 := by
  refine ⟨?_, ?_, ?_, ?_⟩
  · intro j s t out1 err1 out2 err2 hu heq
    have hd : (recordSsh j s t out1 err1).data =
        (recordSsh j s t out2 err2).data := congrArg String.data heq
    rw [recordSsh_data, recordSsh_data] at hd
    have hbody := List.append_cancel_left hd
    have hsplit := marker_split_unique (by decide) hu hbody
    exact ⟨String.ext hsplit.1, String.ext hsplit.2⟩
  · intro j s t out err p hp hpne
    have hple : p ≤ (out.data ++ (stderrMarker ++ err.data)).length :=
      occ_le_length (by decide) hp
    obtain ⟨u, hu⟩ := preB_exists hp
    have hud : u = (out.data ++ (stderrMarker ++ err.data)).drop (p + stderrMarker.length) := by
      have : ((out.data ++ (stderrMarker ++ err.data)).drop p).drop stderrMarker.length =
          (out.data ++ (stderrMarker ++ err.data)).drop (p + stderrMarker.length) :=
        List.drop_drop _ _ _
      rw [← this, hu, List.drop_left]
    refine ⟨String.mk ((out.data ++ (stderrMarker ++ err.data)).take p),
      String.mk ((out.data ++ (stderrMarker ++ err.data)).drop (p + stderrMarker.length)),
      ?_, ?_⟩
    · apply String.ext
      rw [recordSsh_data, recordSsh_data]
      show _ ++ ((out.data ++ (stderrMarker ++ err.data)).take p ++
        (stderrMarker ++ (out.data ++ (stderrMarker ++ err.data)).drop
          (p + stderrMarker.length))) = _
      rw [← hud, ← hu, List.take_append_drop]
    · intro hpair
      have hfst := congrArg Prod.fst hpair
      have hdata : (out.data ++ (stderrMarker ++ err.data)).take p = out.data :=
        congrArg String.data hfst
      have hlen := congrArg List.length hdata
      rw [List.length_take, Nat.min_eq_left hple] at hlen
      exact hpne hlen
  · intro j t out err herr
    constructor
    · apply String.ext
      rw [recordThunderbolt, recordThunderbolt, if_neg (by simp), if_pos herr]
      simp [String.data_append, List.append_assoc]
    · intro hpair
      exact herr ((congrArg Prod.snd hpair).symm)
  · intro j t out1 err1 out2 err2 h1 h2 hu heq
    have hd : (recordThunderbolt j t out1 err1).data =
        (recordThunderbolt j t out2 err2).data := congrArg String.data heq
    rw [recordTb_data _ _ _ _ h1, recordTb_data _ _ _ _ h2] at hd
    have hbody := List.append_cancel_left hd
    have hsplit := marker_split_unique (by decide) hu hbody
    exact ⟨String.ext hsplit.1, String.ext hsplit.2⟩

theorem c9_recorder_round_trip_witness :
    (("A" : String) = "A" ∧ ("B" : String) = "B") ∧
      (∃ out' err', recordSsh "j" "s" "t" out' err' =
          recordSsh "j" "s" "t" "X" "\nSTDERR:\nZ" ∧
        (out', err') ≠ (("X" : String), ("\nSTDERR:\nZ" : String))) ∧
      (recordThunderbolt "j" "t" ("X" ++ "\nSTDERR:\n" ++ "Y") "" =
          recordThunderbolt "j" "t" "X" "Y" ∧
        ((("X" ++ "\nSTDERR:\n" ++ "Y" : String)), ("" : String)) ≠
          (("X" : String), ("Y" : String))) :=
  ⟨c9_recorder_round_trip.1 "j" "s" "t" "A" "B" "A" "B" (by decide) rfl,
    c9_recorder_round_trip.2.1 "j" "s" "t" "X" "\nSTDERR:\nZ" 10 (by decide) (by decide),
    c9_recorder_round_trip.2.2.1 "j" "t" "X" "Y" (by decide)⟩
